import Mathlib

/-!
Shallow embedding of the paper-trading engine of `src/lib/paperTradingService.ts`
(types from `src/types/index.ts`).

Modelling conventions:
* JS `number` values are modelled as `ℚ` (the engine performs only field
  arithmetic: `+ - * /` and comparisons).
* A JS `Record<string, number>` (balances, prices) is modelled as a total map
  `String → ℚ` with default `0`; this matches the source, which reads absent
  keys through `x || 0` and tests presence through truthiness (`!x`), both of
  which identify a missing key with `0`.
* The global mutable `paperTradingStore` is modelled by explicit state passing:
  each operation takes and returns a `PaperTradingStore`.
* `throw new Error(msg)` is modelled as returning `Except.error e` paired with
  the (unmutated) store, where `e` is a structured `TradeError` carrying
  exactly the data interpolated into the corresponding message string.
* Fresh identifiers (`Date.now()` and `Math.random()` in the source) are
  modelled by explicit `orderId` / counter / timestamp parameters.
* Numeric string interpolation (`${x}`) is modelled by `toString` on `ℚ`,
  which agrees with JS formatting on integral values (the only ones the
  theorems below evaluate messages at).
-/

namespace PaperTrading

/-- Order side, from `OrderType` in `src/types/index.ts`. -/
inductive OrderType where
  | Buy
  | Sell
deriving DecidableEq, Repr

/-- Order status, from `OrderStatus` in `src/types/index.ts`. -/
inductive OrderStatus where
  | Pending
  | Executed
  | Failed
  | Cancelled
  | PartiallyFilled
deriving DecidableEq, Repr

/-- Display currency, from `Currency` in `src/types/index.ts`. -/
inductive Currency where
  | USD
  | INR
deriving DecidableEq, Repr

/-- Structure `TradeFee` from `src/types/index.ts`. -/
structure TradeFee where
  amount : ℚ
  asset : String
  rate : ℚ
deriving DecidableEq, Repr

/-- Structure `TradeOrder` from `src/types/index.ts`.  The optional `useBnbForFees?` is
modelled as a `Bool` (`false` = absent, as the source defaults it). -/
structure TradeOrder where
  symbol : String
  type : OrderType
  price : ℚ
  quantity : ℚ
  stopLoss : ℚ
  takeProfit : ℚ
  budget : ℚ
  currency : Currency
  useBnbForFees : Bool
deriving DecidableEq, Repr

/-- Structure `TradeExecution` from `src/types/index.ts`.  The optional numeric fields
`currentPnL` / `currentPnLPercentage` are modelled as `ℚ` with `0` for absent,
which matches every use in the source (`if (trade.currentPnL)` treats
`undefined` and `0` alike). -/
structure TradeExecution where
  orderId : String
  symbol : String
  type : OrderType
  price : ℚ
  quantity : ℚ
  status : OrderStatus
  timestamp : Int
  stopLoss : ℚ
  takeProfit : ℚ
  budget : ℚ
  currency : Currency
  message : String
  fee : Option TradeFee
  currentPnL : ℚ
  currentPnLPercentage : ℚ
deriving DecidableEq, Repr

/-- The in-memory `paperTradingStore` (deposit/withdrawal logs omitted: no
operation modelled here touches them). -/
structure PaperTradingStore where
  trades : List TradeExecution
  balances : String → ℚ
  prices : String → ℚ
  tradeHistory : List TradeExecution
  totalProfitLoss : ℚ

/-- Structured rendering of the `Error`s thrown by `validateTrade` and
`cancelPaperTrade`; each constructor carries exactly the data interpolated
into the corresponding JS message string. -/
inductive TradeError where
  | invalidSymbol (symbol : String)
  | insufficientBalance (asset : String) (required : ℚ) (available : ℚ)
  | tradeNotFound (orderId : String)
deriving DecidableEq, Repr

/-- Removal of the first occurrence of a pattern from a character list, the
semantics of JS `String.prototype.replace` with a string pattern and an empty
replacement. -/
def removeFirstOcc : List Char → List Char → List Char
  | [], _ => []
  | c :: rest, pat =>
    if pat.isPrefixOf (c :: rest) then (c :: rest).drop pat.length
    else c :: removeFirstOcc rest pat

/-- Model of `symbol.replace('USDT', '')`, used throughout the source to map a trading
symbol to its base asset. -/
def baseAsset (s : String) : String := ⟨removeFirstOcc s.data "USDT".data⟩

/-- One JS balance-map assignment `b[asset] = (b[asset] || 0) + delta`
(also covering `b[asset] += delta` / `b[asset] -= delta` under the default-0
total-map reading). -/
def addBal (b : String → ℚ) (asset : String) (delta : ℚ) : String → ℚ :=
  fun a => if a = asset then b a + delta else b a

/-- Model of `calculatePaperTradingFee` (`paperTradingService.ts`, lines 508-534). -/
def calculatePaperTradingFee (_symbol : String) (price quantity : ℚ)
    (useBnbForFees : Bool) : TradeFee :=
  let feeRate : ℚ := 0.001
  let feeRate := if useBnbForFees then feeRate * 0.75 else feeRate
  let orderValue := price * quantity
  let feeAmount := orderValue * feeRate
  let feeAsset := if useBnbForFees then "BNB" else "USDT"
  { amount := feeAmount, asset := feeAsset, rate := feeRate }

/-- Model of `validateTrade` (`paperTradingService.ts`, lines 160-192). -/
def validateTrade (order : TradeOrder) (st : PaperTradingStore) : Option TradeError :=
  if st.prices (baseAsset order.symbol) = 0 then
    some (.invalidSymbol order.symbol)
  else if order.type = OrderType.Buy ∧ st.balances "USDT" < order.price * order.quantity then
    some (.insufficientBalance "USDT" (order.price * order.quantity) (st.balances "USDT"))
  else if order.type = OrderType.Sell ∧
      (st.balances (baseAsset order.symbol) = 0 ∨
        st.balances (baseAsset order.symbol) < order.quantity) then
    some (.insufficientBalance (baseAsset order.symbol) order.quantity
      (st.balances (baseAsset order.symbol)))
  else
    none

/-- The balance mutation of `updatePaperTradingStore`
(`paperTradingService.ts`, lines 539-571): Buy deducts the cost from USDT,
credits the raw `symbol`, then deducts the fee from the fee asset; Sell is
the mirror image (the source mutates only `balances`). -/
def updatePaperTradingStore (trade : TradeExecution) (b : String → ℚ) : String → ℚ :=
  if trade.type = OrderType.Buy then
    let cost := trade.price * trade.quantity
    let b := addBal b "USDT" (-cost)
    let b := addBal b trade.symbol trade.quantity
    match trade.fee with
    | some f => addBal b f.asset (-f.amount)
    | none => b
  else
    let proceeds := trade.price * trade.quantity
    let b := addBal b "USDT" proceeds
    let b := addBal b trade.symbol (-trade.quantity)
    match trade.fee with
    | some f => addBal b f.asset (-f.amount)
    | none => b

/-- Model of `reverseTradeBalanceChanges` (`paperTradingService.ts`, lines 576-608). -/
def reverseTradeBalanceChanges (trade : TradeExecution) (b : String → ℚ) : String → ℚ :=
  if trade.type = OrderType.Buy then
    let cost := trade.price * trade.quantity
    let b := addBal b "USDT" cost
    let b := addBal b trade.symbol (-trade.quantity)
    match trade.fee with
    | some f => addBal b f.asset f.amount
    | none => b
  else
    let proceeds := trade.price * trade.quantity
    let b := addBal b "USDT" (-proceeds)
    let b := addBal b trade.symbol trade.quantity
    match trade.fee with
    | some f => addBal b f.asset f.amount
    | none => b

/-- Model of `executePaperTrade` (`paperTradingService.ts`, lines 86-155).  The fresh
`orderId` (built from `Date.now()`/`Math.random()` in the source) and the
timestamp are explicit parameters.  On a validation error the store is
returned unchanged (the source throws before any mutation). -/
def executePaperTrade (order : TradeOrder) (st : PaperTradingStore)
    (orderId : String) (now : Int) :
    Except TradeError TradeExecution × PaperTradingStore :=
  match validateTrade order st with
  | some e => (.error e, st)
  | none =>
    let fee := calculatePaperTradingFee order.symbol order.price order.quantity
      order.useBnbForFees
    let trade : TradeExecution :=
      { orderId := orderId
        symbol := order.symbol
        type := order.type
        price := order.price
        quantity := order.quantity
        status := OrderStatus.Executed
        timestamp := now
        stopLoss := order.stopLoss
        takeProfit := order.takeProfit
        budget := order.budget
        currency := order.currency
        message :=
          if order.type = OrderType.Buy then "Paper Buy order executed successfully"
          else "Paper Sell order executed successfully"
        fee := some fee
        currentPnL := 0
        currentPnLPercentage := 0 }
    let st := { st with balances := updatePaperTradingStore trade st.balances }
    let st := { st with trades := st.trades ++ [trade] }
    (.ok trade, st)

/-- Model of `getActivePaperTrades` (`paperTradingService.ts`, lines 264-270). -/
def getActivePaperTrades (st : PaperTradingStore) : List TradeExecution :=
  st.trades.filter fun t =>
    decide (t.status = OrderStatus.Executed ∨ t.status = OrderStatus.Pending)

/-- Model of `trades.findIndex(t => t.orderId === orderId)` followed by the read at that
index: the first trade carrying the given id, if any. -/
def findTrade : List TradeExecution → String → Option TradeExecution
  | [], _ => none
  | t :: rest, oid => if t.orderId = oid then some t else findTrade rest oid

/-- Model of `trades[i] = f(trades[i])` at the first index `i` whose trade carries the
given id; `none` when `findIndex` returns `-1`. -/
def setFirstMatching :
    List TradeExecution → String → (TradeExecution → TradeExecution) →
    Option (List TradeExecution)
  | [], _, _ => none
  | t :: rest, oid, f =>
    if t.orderId = oid then some (f t :: rest)
    else (setFirstMatching rest oid f).map (t :: ·)

/-- Model of `cancelPaperTrade` (`paperTradingService.ts`, lines 338-402).  The JS
return value `{...trade, pnl, pnlPercentage}` is modelled by the updated
trade record itself, whose `currentPnL`/`currentPnLPercentage` fields carry
the same two numbers. -/
def cancelPaperTrade (orderId : String) (st : PaperTradingStore) :
    Except TradeError TradeExecution × PaperTradingStore :=
  match findTrade st.trades orderId with
  | none => (.error (.tradeNotFound orderId), st)
  | some trade =>
    let currentPrice := st.prices (baseAsset trade.symbol)
    let pnl : ℚ :=
      if currentPrice ≠ 0 then
        let raw :=
          if trade.type = OrderType.Buy then (currentPrice - trade.price) * trade.quantity
          else (trade.price - currentPrice) * trade.quantity
        match trade.fee with
        | some f => raw - f.amount
        | none => raw
      else 0
    let pnlPercentage : ℚ :=
      if currentPrice ≠ 0 then pnl / (trade.price * trade.quantity) * 100 else 0
    let trade' :=
      { trade with
        status := OrderStatus.Cancelled
        message := "Paper trade cancelled successfully"
        currentPnL := pnl
        currentPnLPercentage := pnlPercentage }
    let trades' := (setFirstMatching st.trades orderId (fun _ => trade')).getD st.trades
    let st' :=
      { st with
        trades := trades'
        tradeHistory := st.tradeHistory ++ [trade']
        totalProfitLoss := st.totalProfitLoss + pnl
        balances := reverseTradeBalanceChanges trade' st.balances }
    (.ok trade', st')

/-- Structure `TradeHistory` from `src/types/index.ts`. -/
structure TradeHistory where
  trades : List TradeExecution
  totalProfit : ℚ
  totalLoss : ℚ
  totalFees : ℚ
  winRate : ℚ
  currency : Currency
deriving Repr

/-- The date-range filter of `getPaperTradingHistory` (lines 282-294);
JS `Date` comparisons reduce to comparisons of their millisecond values,
modelled by `Int` timestamps. -/
def inDateRange (startDate endDate : Option Int) (ts : Int) : Bool :=
  match startDate, endDate with
  | some s, some e => decide (s ≤ ts ∧ ts ≤ e)
  | some s, none => decide (s ≤ ts)
  | none, some e => decide (ts ≤ e)
  | none, none => true

/-- Accumulator of the metrics loop of `getPaperTradingHistory` (lines 296-321). -/
structure HistAcc where
  totalProfit : ℚ
  totalLoss : ℚ
  totalFees : ℚ
  winCount : ℕ
  totalCount : ℕ
deriving DecidableEq, Repr

/-- One iteration of the `trades.forEach` loop of `getPaperTradingHistory`
(lines 303-321). -/
def historyStep (acc : HistAcc) (trade : TradeExecution) : HistAcc :=
  let acc :=
    if trade.status = OrderStatus.Cancelled then
      if trade.currentPnL ≠ 0 then
        if 0 < trade.currentPnL then
          { acc with
            totalProfit := acc.totalProfit + trade.currentPnL
            winCount := acc.winCount + 1
            totalCount := acc.totalCount + 1 }
        else
          { acc with
            totalLoss := acc.totalLoss + |trade.currentPnL|
            totalCount := acc.totalCount + 1 }
      else acc
    else acc
  match trade.fee with
  | some f => { acc with totalFees := acc.totalFees + f.amount }
  | none => acc

/-- Model of `getPaperTradingHistory` (`paperTradingService.ts`, lines 275-333). -/
def getPaperTradingHistory (st : PaperTradingStore) (startDate endDate : Option Int) :
    TradeHistory :=
  let trades := st.tradeHistory.filter fun t => inDateRange startDate endDate t.timestamp
  let acc := trades.foldl historyStep ⟨0, 0, 0, 0, 0⟩
  let winRate : ℚ :=
    if 0 < acc.totalCount then ((acc.winCount : ℚ) / (acc.totalCount : ℚ)) * 100 else 0
  { trades := trades
    totalProfit := acc.totalProfit
    totalLoss := acc.totalLoss
    totalFees := acc.totalFees
    winRate := winRate
    currency := Currency.USD }

/-- Condition `trade.type === OrderType.Buy && currentPrice <= trade.stopLoss`
(`checkStopLossAndTakeProfit`, line 622). -/
abbrev buyStopHit (t : TradeExecution) (p : ℚ) : Prop :=
  t.type = OrderType.Buy ∧ p ≤ t.stopLoss

/-- Condition `trade.type === OrderType.Buy && currentPrice >= trade.takeProfit` (line 627). -/
abbrev buyTakeProfitHit (t : TradeExecution) (p : ℚ) : Prop :=
  t.type = OrderType.Buy ∧ t.takeProfit ≤ p

/-- Condition `trade.type === OrderType.Sell && currentPrice >= trade.stopLoss` (line 632). -/
abbrev sellStopHit (t : TradeExecution) (p : ℚ) : Prop :=
  t.type = OrderType.Sell ∧ t.stopLoss ≤ p

/-- Condition `trade.type === OrderType.Sell && currentPrice <= trade.takeProfit` (line 637). -/
abbrev sellTakeProfitHit (t : TradeExecution) (p : ℚ) : Prop :=
  t.type = OrderType.Sell ∧ p ≤ t.takeProfit

/-- Model of `paperTradingStore.prices[trade.symbol] || trade.price` (line 619): the
price a trigger check runs against (note: the raw symbol, not `baseAsset`). -/
def triggerPrice (st : PaperTradingStore) (t : TradeExecution) : ℚ :=
  if st.prices t.symbol ≠ 0 then st.prices t.symbol else t.price

/-- The closing execution synthesized by `executePaperStopLoss` /
`executePaperTakeProfit` (lines 657-676 / 704-723); the two differ only in
the orderId prefix and the message text.  The source object literal has no
`currentPnL`/`currentPnLPercentage` fields (absent = `0` in this model). -/
def mkCloseTrade (trade : TradeExecution) (currentPrice : ℚ)
    (idPrefix msg : String) (k : ℕ) (now : Int) : TradeExecution :=
  { orderId := idPrefix ++ toString now ++ "-" ++ toString k
    symbol := trade.symbol
    type := if trade.type = OrderType.Buy then OrderType.Sell else OrderType.Buy
    price := currentPrice
    quantity := trade.quantity
    status := OrderStatus.Executed
    timestamp := now
    stopLoss := 0
    takeProfit := 0
    budget := trade.budget
    currency := trade.currency
    message := msg
    fee := some (calculatePaperTradingFee trade.symbol currentPrice trade.quantity false)
    currentPnL := 0
    currentPnLPercentage := 0 }

/-- Model of `executePaperStopLoss` (`paperTradingService.ts`, lines 648-690). -/
def executePaperStopLoss (st : PaperTradingStore) (trade : TradeExecution)
    (currentPrice : ℚ) (k : ℕ) (now : Int) : PaperTradingStore :=
  match setFirstMatching st.trades trade.orderId (fun t =>
      { t with
        status := OrderStatus.Executed
        message := "Position closed by stop loss at " ++ toString currentPrice }) with
  | none => st
  | some trades1 =>
    let closeTrade := mkCloseTrade trade currentPrice "PAPER-SL-"
      ("Paper stop loss executed at " ++ toString currentPrice) k now
    { st with
      trades := trades1 ++ [closeTrade]
      balances := updatePaperTradingStore closeTrade st.balances }

/-- Model of `executePaperTakeProfit` (`paperTradingService.ts`, lines 695-737). -/
def executePaperTakeProfit (st : PaperTradingStore) (trade : TradeExecution)
    (currentPrice : ℚ) (k : ℕ) (now : Int) : PaperTradingStore :=
  match setFirstMatching st.trades trade.orderId (fun t =>
      { t with
        status := OrderStatus.Executed
        message := "Position closed by take profit at " ++ toString currentPrice }) with
  | none => st
  | some trades1 =>
    let closeTrade := mkCloseTrade trade currentPrice "PAPER-TP-"
      ("Paper take profit executed at " ++ toString currentPrice) k now
    { st with
      trades := trades1 ++ [closeTrade]
      balances := updatePaperTradingStore closeTrade st.balances }

/-- The body of the `activeTrades.forEach` loop of `checkStopLossAndTakeProfit`
(lines 618-642): the four-way `if`/`else if` trigger dispatch for one trade. -/
def processTrigger (st : PaperTradingStore) (trade : TradeExecution)
    (k : ℕ) (now : Int) : PaperTradingStore :=
  let currentPrice := triggerPrice st trade
  if buyStopHit trade currentPrice then executePaperStopLoss st trade currentPrice k now
  else if buyTakeProfitHit trade currentPrice then
    executePaperTakeProfit st trade currentPrice k now
  else if sellStopHit trade currentPrice then
    executePaperStopLoss st trade currentPrice k now
  else if sellTakeProfitHit trade currentPrice then
    executePaperTakeProfit st trade currentPrice k now
  else st

/-- Model of `checkStopLossAndTakeProfit` (`paperTradingService.ts`, lines 613-643):
the active list is snapshotted once, then each trade is processed against the
evolving store.  `k` seeds the fresh-id counter. -/
def checkStopLossAndTakeProfit (st : PaperTradingStore) (k : ℕ) (now : Int) :
    PaperTradingStore :=
  ((getActivePaperTrades st).foldl
    (fun (acc : PaperTradingStore × ℕ) trade =>
      (processTrigger acc.1 trade acc.2 now, acc.2 + 1))
    (st, k)).1

/-- The JS object spread `{...prices, ...newPrices}` (line 485), later keys
overriding earlier ones. -/
def mergePrices (prices : String → ℚ) (updates : List (String × ℚ)) : String → ℚ :=
  updates.foldl (fun acc kv => fun a => if a = kv.1 then kv.2 else acc a) prices

/-- Model of `updatePaperTradingPrices` (`paperTradingService.ts`, lines 483-489). -/
def updatePaperTradingPrices (st : PaperTradingStore) (prices : List (String × ℚ))
    (k : ℕ) (now : Int) : PaperTradingStore :=
  checkStopLossAndTakeProfit { st with prices := mergePrices st.prices prices } k now

/-- The balance map of the freshly initialized `paperTradingStore` (lines 44-50). -/
def demoBalances : String → ℚ := fun a =>
  if a = "USD" then 10000 else if a = "USDT" then 10000 else 0

/-- The price map of the freshly initialized `paperTradingStore` (lines 51-55). -/
def demoPrices : String → ℚ := fun a =>
  if a = "BTC" then 50000 else if a = "ETH" then 3000 else if a = "BNB" then 500 else 0

/-- The freshly initialized `paperTradingStore` (lines 42-60). -/
def initialStore : PaperTradingStore :=
  { trades := []
    balances := demoBalances
    prices := demoPrices
    tradeHistory := []
    totalProfitLoss := 0 }

/-! ### Generic lemmas about the embedded operations -/

theorem baseAsset_BTC : baseAsset "BTC" = "BTC" := rfl

theorem baseAsset_ETH : baseAsset "ETH" = "ETH" := rfl

/-- Lemma: `findTrade` finds a trade appended at the end of a list containing no trade
with its id. -/
theorem findTrade_append_fresh (l : List TradeExecution) (tr : TradeExecution)
    (oid : String) (hid : tr.orderId = oid) (h : ∀ t ∈ l, t.orderId ≠ oid) :
    findTrade (l ++ [tr]) oid = some tr := by
  induction l with
  | nil => simp [findTrade, hid]
  | cons t rest ih =>
    have ht : t.orderId ≠ oid := h t (List.mem_cons_self _ _)
    simp only [List.cons_append, findTrade, if_neg ht]
    exact ih fun t' ht' => h t' (List.mem_cons_of_mem _ ht')

/-- A successful `setFirstMatching` exists as soon as some trade carries the id. -/
theorem setFirstMatching_of_mem (l : List TradeExecution) (oid : String)
    (f : TradeExecution → TradeExecution)
    (h : ∃ t ∈ l, t.orderId = oid) :
    ∃ l', setFirstMatching l oid f = some l' ∧
      ∀ t ∈ l, t.orderId ≠ oid → t ∈ l' := by
  induction l with
  | nil => simp at h
  | cons t rest ih =>
    by_cases ht : t.orderId = oid
    · exact ⟨f t :: rest, by simp [setFirstMatching, ht], by
        intro t' ht' hne
        rcases List.mem_cons.1 ht' with rfl | hmem
        · exact absurd ht hne
        · exact List.mem_cons_of_mem _ hmem⟩
    · rcases h with ⟨t', ht', hid⟩
      rcases List.mem_cons.1 ht' with rfl | hmem
      · exact absurd hid ht
      · rcases ih ⟨t', hmem, hid⟩ with ⟨l', hl', hkeep⟩
        refine ⟨t :: l', by simp [setFirstMatching, ht, hl'], ?_⟩
        intro u hu hne
        rcases List.mem_cons.1 hu with rfl | humem
        · exact List.mem_cons_self _ _
        · exact List.mem_cons_of_mem _ (hkeep u humem hne)

/-- Lemma: `validateTrade` succeeds exactly when the symbol is priced and neither
balance check fires. -/
theorem validateTrade_eq_none (order : TradeOrder) (st : PaperTradingStore) :
    validateTrade order st = none ↔
      st.prices (baseAsset order.symbol) ≠ 0 ∧
      ¬(order.type = OrderType.Buy ∧
          st.balances "USDT" < order.price * order.quantity) ∧
      ¬(order.type = OrderType.Sell ∧
          (st.balances (baseAsset order.symbol) = 0 ∨
            st.balances (baseAsset order.symbol) < order.quantity)) := by
  unfold validateTrade
  split_ifs with h1 h2 h3 <;> simp_all

/-- Reversing a trade's balance changes undoes applying them, whatever the
trade: the three deltas are credited back to the same assets. -/
theorem reverse_updatePaperTradingStore (tr : TradeExecution) (b : String → ℚ)
    (a : String) :
    reverseTradeBalanceChanges tr (updatePaperTradingStore tr b) a = b a := by
  unfold reverseTradeBalanceChanges updatePaperTradingStore
  rcases htype : tr.type <;> rcases hf : tr.fee <;>
    simp only [htype, hf, if_pos, if_neg, reduceCtorEq, ite_true, ite_false, addBal] <;>
    split_ifs <;> ring

/-- Lemma: `reverseTradeBalanceChanges` reads only the trade fields that
`updatePaperTradingStore` wrote with; a status/message/PnL relabelling of the
trade reverses it just as well. -/
theorem reverse_updatePaperTradingStore' (tr tr' : TradeExecution) (b : String → ℚ)
    (hs : tr'.symbol = tr.symbol) (ht : tr'.type = tr.type) (hp : tr'.price = tr.price)
    (hq : tr'.quantity = tr.quantity) (hf : tr'.fee = tr.fee) (a : String) :
    reverseTradeBalanceChanges tr' (updatePaperTradingStore tr b) a = b a := by
  have : reverseTradeBalanceChanges tr' = reverseTradeBalanceChanges tr := by
    unfold reverseTradeBalanceChanges
    rw [hs, ht, hp, hq, hf]
  rw [this]
  exact reverse_updatePaperTradingStore tr b a

/-- A trade breaching none of the four trigger comparisons leaves the store
untouched by `processTrigger`. -/
theorem processTrigger_eq_self (st : PaperTradingStore) (t : TradeExecution)
    (k : ℕ) (now : Int)
    (h : ¬buyStopHit t (triggerPrice st t) ∧ ¬buyTakeProfitHit t (triggerPrice st t) ∧
      ¬sellStopHit t (triggerPrice st t) ∧ ¬sellTakeProfitHit t (triggerPrice st t)) :
    processTrigger st t k now = st := by
  unfold processTrigger
  rw [if_neg h.1, if_neg h.2.1, if_neg h.2.2.1, if_neg h.2.2.2]

/-- If every trade of the snapshot list leaves the store untouched, so does the
whole counting fold of `checkStopLossAndTakeProfit`. -/
theorem foldl_processTrigger_eq_self (st : PaperTradingStore)
    (l : List TradeExecution) (k : ℕ) (now : Int)
    (h : ∀ t ∈ l, ∀ k', processTrigger st t k' now = st) :
    (l.foldl (fun (acc : PaperTradingStore × ℕ) trade =>
        (processTrigger acc.1 trade acc.2 now, acc.2 + 1)) (st, k)).1 = st := by
  induction l generalizing k with
  | nil => rfl
  | cons t rest ih =>
    simp only [List.foldl_cons, h t (List.mem_cons_self _ _) k]
    exact ih (k + 1) fun t' ht' k' => h t' (List.mem_cons_of_mem _ ht') k'

/-- If no active trade of the merged-price store breaches a trigger comparison,
the trigger pass is the identity. -/
theorem checkStopLossAndTakeProfit_eq_self (st : PaperTradingStore) (k : ℕ) (now : Int)
    (h : ∀ t ∈ getActivePaperTrades st,
      ¬buyStopHit t (triggerPrice st t) ∧ ¬buyTakeProfitHit t (triggerPrice st t) ∧
      ¬sellStopHit t (triggerPrice st t) ∧ ¬sellTakeProfitHit t (triggerPrice st t)) :
    checkStopLossAndTakeProfit st k now = st := by
  unfold checkStopLossAndTakeProfit
  exact foldl_processTrigger_eq_self st _ k now
    fun t ht k' => processTrigger_eq_self st t k' now (h t ht)

/-! ### Closed forms for the history metrics (the spec's description of
`getPaperTradingHistory`, §4.5, used to state C9 against the loop). -/

/-- Projection `fee.amount` of a trade, `0` when the fee is absent. -/
def feeAmountOf (t : TradeExecution) : ℚ :=
  match t.fee with
  | some f => f.amount
  | none => 0

/-- The contribution of one trade to `totalProfit`: its PnL when it is a
Cancelled trade with a positive realized PnL, else `0`. -/
def profitContrib (t : TradeExecution) : ℚ :=
  if t.status = OrderStatus.Cancelled ∧ 0 < t.currentPnL then t.currentPnL else 0

/-- The contribution of one trade to `totalLoss`: `|PnL|` when it is a
Cancelled trade with a negative realized PnL, else `0`. -/
def lossContrib (t : TradeExecution) : ℚ :=
  if t.status = OrderStatus.Cancelled ∧ t.currentPnL < 0 then |t.currentPnL| else 0

/-- A Cancelled trade with positive realized PnL (a "win"). -/
def isWin (t : TradeExecution) : Bool :=
  decide (t.status = OrderStatus.Cancelled ∧ 0 < t.currentPnL)

/-- A Cancelled trade carrying a (nonzero) realized PnL: the trades the
win-rate denominator counts. -/
def isCounted (t : TradeExecution) : Bool :=
  decide (t.status = OrderStatus.Cancelled ∧ t.currentPnL ≠ 0)

theorem historyStep_totalFees (acc : HistAcc) (t : TradeExecution) :
    (historyStep acc t).totalFees = acc.totalFees + feeAmountOf t := by
  unfold historyStep feeAmountOf
  rcases t.fee <;> split_ifs <;> simp

theorem historyStep_totalProfit (acc : HistAcc) (t : TradeExecution) :
    (historyStep acc t).totalProfit = acc.totalProfit + profitContrib t := by
  unfold historyStep profitContrib
  rcases hf : t.fee with _ | f <;>
    split_ifs with h1 h2 h3 h4 <;>
    simp_all

theorem historyStep_totalLoss (acc : HistAcc) (t : TradeExecution) :
    (historyStep acc t).totalLoss = acc.totalLoss + lossContrib t := by
  unfold historyStep lossContrib
  rcases hf : t.fee with _ | f <;>
    split_ifs with h1 h2 h3 h4 <;>
    simp_all <;>
    first
    | linarith
    | (rcases lt_or_gt_of_ne h2 with h | h <;> linarith)

theorem historyStep_winCount (acc : HistAcc) (t : TradeExecution) :
    (historyStep acc t).winCount = acc.winCount + (if isWin t then 1 else 0) := by
  unfold historyStep isWin
  simp only [decide_eq_true_eq]
  rcases hf : t.fee with _ | f <;>
    split_ifs with h1 h2 h3 h4 <;>
    simp_all

theorem historyStep_totalCount (acc : HistAcc) (t : TradeExecution) :
    (historyStep acc t).totalCount = acc.totalCount + (if isCounted t then 1 else 0) := by
  unfold historyStep isCounted
  simp only [decide_eq_true_eq]
  rcases hf : t.fee with _ | f <;>
    split_ifs with h1 h2 h3 h4 <;>
    simp_all

/-- The metrics loop of `getPaperTradingHistory` computes the closed-form
sums and counts. -/
theorem foldl_historyStep (l : List TradeExecution) (acc : HistAcc) :
    l.foldl historyStep acc =
      { totalProfit := acc.totalProfit + (l.map profitContrib).sum
        totalLoss := acc.totalLoss + (l.map lossContrib).sum
        totalFees := acc.totalFees + (l.map feeAmountOf).sum
        winCount := acc.winCount + l.countP isWin
        totalCount := acc.totalCount + l.countP isCounted } := by
  induction l generalizing acc with
  | nil => simp
  | cons t rest ih =>
    rw [List.foldl_cons, ih]
    simp only [List.map_cons, List.sum_cons, List.countP_cons, HistAcc.mk.injEq,
      historyStep_totalFees, historyStep_totalProfit, historyStep_totalLoss,
      historyStep_winCount, historyStep_totalCount]
    refine ⟨by ring, by ring, by ring, by split_ifs <;> omega, by split_ifs <;> omega⟩

/-! ### Claim C9 -/

/-- C9: for every closed-trade history and optional date bounds,
`getPaperTradingHistory` returns `totalFees` as the sum of `fee.amount` over
every trade of the filtered set regardless of status or win/loss, accumulates
`totalProfit`, `totalLoss` and the win count only over trades with status
Cancelled that carry a (nonzero) realized `currentPnL`, and returns
`winRate = wins / totalTradesCounted * 100`, or `0` when no trades are
counted. -/
theorem C9_history_metrics (st : PaperTradingStore) (startDate endDate : Option Int) :
    (getPaperTradingHistory st startDate endDate).trades
        = st.tradeHistory.filter (fun t => inDateRange startDate endDate t.timestamp)
    ∧ (getPaperTradingHistory st startDate endDate).totalFees
        = (((st.tradeHistory.filter fun t => inDateRange startDate endDate t.timestamp).map
            feeAmountOf).sum)
    ∧ (getPaperTradingHistory st startDate endDate).totalProfit
        = (((st.tradeHistory.filter fun t => inDateRange startDate endDate t.timestamp).map
            profitContrib).sum)
    ∧ (getPaperTradingHistory st startDate endDate).totalLoss
        = (((st.tradeHistory.filter fun t => inDateRange startDate endDate t.timestamp).map
            lossContrib).sum)
    ∧ (getPaperTradingHistory st startDate endDate).winRate
        = (if 0 < ((st.tradeHistory.filter fun t =>
              inDateRange startDate endDate t.timestamp).countP isCounted) then
            (((st.tradeHistory.filter fun t =>
                inDateRange startDate endDate t.timestamp).countP isWin : ℚ) /
              ((st.tradeHistory.filter fun t =>
                inDateRange startDate endDate t.timestamp).countP isCounted : ℚ)) * 100
          else 0) := by
  simp only [getPaperTradingHistory, foldl_historyStep]
  simp
  rw [Nat.zero_add]

/-! ### Claim C7 -/

/-- C7: the fee equals `price * quantity * effectiveRate` with
`effectiveRate = 0.001` by default and `0.001 * (1 - 0.25)` under the BNB
option, the fee asset is `BNB` exactly in the discount case and `USDT`
otherwise, and (for nonnegative order parameters) the discounted fee never
exceeds the default fee. -/
theorem C7_fee_formula_and_discount (symbol : String) (price quantity : ℚ)
    (useBnbForFees : Bool) (hp : 0 ≤ price) (hq : 0 ≤ quantity) :
    (calculatePaperTradingFee symbol price quantity useBnbForFees).amount
        = price * quantity * (if useBnbForFees then 0.001 * (1 - 0.25) else 0.001)
    ∧ (calculatePaperTradingFee symbol price quantity useBnbForFees).asset
        = (if useBnbForFees then "BNB" else "USDT")
    ∧ (calculatePaperTradingFee symbol price quantity useBnbForFees).rate
        = (if useBnbForFees then 0.001 * (1 - 0.25) else 0.001)
    ∧ (calculatePaperTradingFee symbol price quantity true).amount
        ≤ (calculatePaperTradingFee symbol price quantity false).amount := by
  have hpq : (0 : ℚ) ≤ price * quantity := mul_nonneg hp hq
  refine ⟨?_, ?_, ?_, ?_⟩
  · rcases useBnbForFees <;> norm_num [calculatePaperTradingFee]
  · rcases useBnbForFees <;> norm_num [calculatePaperTradingFee]
  · rcases useBnbForFees <;> norm_num [calculatePaperTradingFee]
  · norm_num [calculatePaperTradingFee]
    nlinarith

/-- Witness for C7 at `price = 50000`, `quantity = 1`. -/
theorem C7_witness :
    (0 : ℚ) ≤ 50000 ∧ (0 : ℚ) ≤ 1 ∧
    ((calculatePaperTradingFee "BTC" 50000 1 true).amount
        = 50000 * 1 * (0.001 * (1 - 0.25))
      ∧ (calculatePaperTradingFee "BTC" 50000 1 true).asset = "BNB"
      ∧ (calculatePaperTradingFee "BTC" 50000 1 true).rate = 0.001 * (1 - 0.25)
      ∧ (calculatePaperTradingFee "BTC" 50000 1 true).amount
          ≤ (calculatePaperTradingFee "BTC" 50000 1 false).amount) := by
  refine ⟨by norm_num, by norm_num, ?_⟩
  have h := C7_fee_formula_and_discount "BTC" 50000 1 true (by norm_num) (by norm_num)
  simpa using h

/-! ### Claim C5 -/

/-- C5: cancellation is an exact undo.  For every state and every order
`executePaperTrade` accepts (validation passes; the fresh id is new), calling
`cancelPaperTrade` on that order's id with no intervening operation restores
every asset balance — in particular the quote-, base-, and fee-asset
balances — to its pre-trade value. -/
theorem C5_cancel_exact_undo (st : PaperTradingStore) (order : TradeOrder)
    (oid : String) (now : Int)
    (hacc : validateTrade order st = none)
    (hfresh : ∀ t ∈ st.trades, t.orderId ≠ oid) :
    (executePaperTrade order st oid now).1.isOk = true
    ∧ (cancelPaperTrade oid (executePaperTrade order st oid now).2).1.isOk = true
    ∧ ∀ a, ((cancelPaperTrade oid (executePaperTrade order st oid now).2).2).balances a
        = st.balances a := by
  simp only [executePaperTrade, hacc]
  have hfind := findTrade_append_fresh st.trades
    { orderId := oid
      symbol := order.symbol
      type := order.type
      price := order.price
      quantity := order.quantity
      status := OrderStatus.Executed
      timestamp := now
      stopLoss := order.stopLoss
      takeProfit := order.takeProfit
      budget := order.budget
      currency := order.currency
      message :=
        if order.type = OrderType.Buy then "Paper Buy order executed successfully"
        else "Paper Sell order executed successfully"
      fee := some (calculatePaperTradingFee order.symbol order.price order.quantity
        order.useBnbForFees)
      currentPnL := 0
      currentPnLPercentage := 0 } oid rfl hfresh
  refine ⟨rfl, ?_, ?_⟩
  · simp only [cancelPaperTrade]
    rw [hfind]
    rfl
  · intro a
    simp only [cancelPaperTrade]
    rw [hfind]
    exact reverse_updatePaperTradingStore' _ _ st.balances rfl rfl rfl rfl rfl a

/-- The order of the C5 witness scenario: Buy 1 BTC at 100 USDT. -/
def oW5 : TradeOrder :=
  ⟨"BTC", OrderType.Buy, 100, 1, 45000, 55000, 100, Currency.USD, false⟩

/-- Witness for C5: execute then cancel `oW5` on the fresh account; every
balance returns to its initial value. -/
theorem C5_witness :
    validateTrade oW5 initialStore = none
    ∧ (∀ t ∈ initialStore.trades, t.orderId ≠ "PAPER-W5")
    ∧ ∀ a, ((cancelPaperTrade "PAPER-W5"
        (executePaperTrade oW5 initialStore "PAPER-W5" 0).2).2).balances a
        = initialStore.balances a := by
  have h1 : validateTrade oW5 initialStore = none := by
    simp [validateTrade, oW5, initialStore, demoPrices, demoBalances, baseAsset_BTC]
    norm_num
  have h2 : ∀ t ∈ initialStore.trades, t.orderId ≠ "PAPER-W5" := by
    simp [initialStore]
  exact ⟨h1, h2, (C5_cancel_exact_undo initialStore oW5 "PAPER-W5" 0 h1 h2).2.2⟩

/-! ### Claim C1 -/

/-- The C1 counterexample state: the fresh account after
`setPaperTradingBalance('USDT', 50000)` (`paperTradingService.ts`, line 501). -/
def stC1 : PaperTradingStore :=
  { initialStore with balances := fun a => if a = "USDT" then 50000 else 0 }

/-- The C1 counterexample order: Buy 1 BTC at 50000, fees in USDT. -/
def oC1 : TradeOrder :=
  ⟨"BTC", OrderType.Buy, 50000, 1, 45000, 55000, 50000, Currency.USD, false⟩

theorem vC1 : validateTrade oC1 stC1 = none := by
  simp [validateTrade, oC1, stC1, initialStore, demoPrices, baseAsset_BTC]

/-- C1 fails on the code: with exactly enough USDT for the principal, the buy
is accepted (validation ignores the fee) and the fee deduction drives the
USDT balance to `-50 < 0`. -/
theorem C1_counterexample :
    (executePaperTrade oC1 stC1 "PAPER-C1" 0).1.isOk = true
    ∧ ((executePaperTrade oC1 stC1 "PAPER-C1" 0).2).balances "USDT" = -50 := by
  constructor
  · simp only [executePaperTrade, vC1]
    rfl
  · simp only [executePaperTrade, vC1]
    simp [updatePaperTradingStore, calculatePaperTradingFee, addBal, oC1, stC1, initialStore]
    norm_num

/-- C1 amended: validation guarantees only that the principal is covered.
For every accepted order, after the balance update the funded balance
(`USDT` for a Buy, the base asset for a Sell) is still non-negative *up to
the fee charged to that same asset*; the fee deduction itself is not
validated and can (see `C1_counterexample`) drive the fee-asset balance
below zero. -/
theorem C1_amended (st : PaperTradingStore) (order : TradeOrder) (oid : String) (now : Int)
    (hacc : validateTrade order st = none)
    (hsym : order.symbol ≠ "USDT")
    (hbase : baseAsset order.symbol = order.symbol) :
    (order.type = OrderType.Buy →
      ((executePaperTrade order st oid now).2).balances "USDT"
          + (if (calculatePaperTradingFee order.symbol order.price order.quantity
              order.useBnbForFees).asset = "USDT" then
              (calculatePaperTradingFee order.symbol order.price order.quantity
                order.useBnbForFees).amount
            else 0)
        = st.balances "USDT" - order.price * order.quantity
      ∧ 0 ≤ ((executePaperTrade order st oid now).2).balances "USDT"
          + (if (calculatePaperTradingFee order.symbol order.price order.quantity
              order.useBnbForFees).asset = "USDT" then
              (calculatePaperTradingFee order.symbol order.price order.quantity
                order.useBnbForFees).amount
            else 0))
    ∧ (order.type = OrderType.Sell →
      ((executePaperTrade order st oid now).2).balances order.symbol
          + (if (calculatePaperTradingFee order.symbol order.price order.quantity
              order.useBnbForFees).asset = order.symbol then
              (calculatePaperTradingFee order.symbol order.price order.quantity
                order.useBnbForFees).amount
            else 0)
        = st.balances order.symbol - order.quantity
      ∧ 0 ≤ ((executePaperTrade order st oid now).2).balances order.symbol
          + (if (calculatePaperTradingFee order.symbol order.price order.quantity
              order.useBnbForFees).asset = order.symbol then
              (calculatePaperTradingFee order.symbol order.price order.quantity
                order.useBnbForFees).amount
            else 0)) := by
  obtain ⟨hpr, hnb, hns⟩ := (validateTrade_eq_none order st).1 hacc
  have husdt : "USDT" ≠ order.symbol := Ne.symm hsym
  constructor
  · intro hb
    have hge : order.price * order.quantity ≤ st.balances "USDT" :=
      not_lt.1 fun h => hnb ⟨hb, h⟩
    simp only [executePaperTrade, hacc]
    simp only [updatePaperTradingStore, calculatePaperTradingFee, addBal, hb, if_true]
    rcases hu : order.useBnbForFees <;>
      simp [husdt, hu] <;>
      constructor <;>
      first
      | ring1
      | linarith
  · intro hs
    have hsell : ¬(st.balances (baseAsset order.symbol) = 0 ∨
        st.balances (baseAsset order.symbol) < order.quantity) :=
      fun h => hns ⟨hs, h⟩
    have hge : order.quantity ≤ st.balances order.symbol := by
      rw [hbase] at hsell
      push_neg at hsell
      exact hsell.2
    have hbuy : ¬(order.type = OrderType.Buy) := by simp [hs]
    simp only [executePaperTrade, hacc]
    simp only [updatePaperTradingStore, calculatePaperTradingFee, addBal, hbuy, if_false]
    rcases hu : order.useBnbForFees
    · simp [husdt, hsym, hu]
      constructor
      · ring1
      · linarith
    · by_cases hbnb : order.symbol = "BNB"
      · rw [hbnb] at hge ⊢
        simp [hu]
        constructor
        · ring1
        · linarith
      · have hbnb' : "BNB" ≠ order.symbol := fun h => hbnb h.symm
        simp [husdt, hsym, hu, hbnb, hbnb']
        constructor
        · ring1
        · linarith

/-- The C1 witness order: Buy 1 BTC at 5000 from the fresh account. -/
def oW1 : TradeOrder :=
  ⟨"BTC", OrderType.Buy, 5000, 1, 0, 0, 5000, Currency.USD, false⟩

/-- Witness for C1 amended at a Buy accepted on the fresh account. -/
theorem C1_witness :
    validateTrade oW1 initialStore = none
    ∧ oW1.symbol ≠ "USDT"
    ∧ baseAsset oW1.symbol = oW1.symbol
    ∧ (oW1.type = OrderType.Buy →
        ((executePaperTrade oW1 initialStore "PAPER-W1" 0).2).balances "USDT"
            + (if (calculatePaperTradingFee oW1.symbol oW1.price oW1.quantity
                oW1.useBnbForFees).asset = "USDT" then
                (calculatePaperTradingFee oW1.symbol oW1.price oW1.quantity
                  oW1.useBnbForFees).amount
              else 0)
          = initialStore.balances "USDT" - oW1.price * oW1.quantity
        ∧ 0 ≤ ((executePaperTrade oW1 initialStore "PAPER-W1" 0).2).balances "USDT"
            + (if (calculatePaperTradingFee oW1.symbol oW1.price oW1.quantity
                oW1.useBnbForFees).asset = "USDT" then
                (calculatePaperTradingFee oW1.symbol oW1.price oW1.quantity
                  oW1.useBnbForFees).amount
              else 0)) := by
  have h1 : validateTrade oW1 initialStore = none := by
    simp [validateTrade, oW1, initialStore, demoPrices, demoBalances, baseAsset_BTC]
    norm_num
  have h2 : oW1.symbol ≠ "USDT" := by simp [oW1]
  have h3 : baseAsset oW1.symbol = oW1.symbol := baseAsset_BTC
  exact ⟨h1, h2, h3,
    (C1_amended initialStore oW1 "PAPER-W1" 0 h1 h2 h3).1⟩

/-! ### Claim C6 -/

/-- The C6 counterexample order: Sell 0 BTC (quantity zero) on the fresh
account, which holds 0 BTC. -/
def oC6 : TradeOrder :=
  ⟨"BTC", OrderType.Sell, 50000, 0, 0, 0, 0, Currency.USD, false⟩

/-- C6 fails as an "exactly when": the falsy-balance check
`!paperTradingStore.balances[asset]` also rejects a Sell whose base balance is
`0` even though the balance is not below the (zero) quantity. -/
theorem C6_counterexample :
    (executePaperTrade oC6 initialStore "PAPER-C6" 0).1
      = Except.error (TradeError.insufficientBalance "BTC" 0 0)
    ∧ ¬(initialStore.balances (baseAsset oC6.symbol) < oC6.quantity) := by
  constructor
  · simp [executePaperTrade, validateTrade, oC6, initialStore, demoPrices, demoBalances,
      baseAsset_BTC]
  · simp [initialStore, demoBalances, oC6, baseAsset_BTC]

/-- C6 amended: for a priced symbol, `executePaperTrade` fails exactly when
(Buy) `price*quantity` exceeds the available USDT balance or (Sell) the
base-asset balance is zero/absent or below the quantity; the failure is an
`InsufficientBalance` naming the asset, the required amount and the available
amount; and any validation failure returns the store unchanged
(all-or-nothing). -/
theorem C6_amended (st : PaperTradingStore) (order : TradeOrder) (oid : String) (now : Int)
    (hsym : ¬st.prices (baseAsset order.symbol) = 0) :
    ((executePaperTrade order st oid now).1.isOk = false ↔
      (order.type = OrderType.Buy ∧ st.balances "USDT" < order.price * order.quantity) ∨
      (order.type = OrderType.Sell ∧ (st.balances (baseAsset order.symbol) = 0 ∨
        st.balances (baseAsset order.symbol) < order.quantity)))
    ∧ (order.type = OrderType.Buy → st.balances "USDT" < order.price * order.quantity →
        (executePaperTrade order st oid now).1 = Except.error
          (TradeError.insufficientBalance "USDT" (order.price * order.quantity)
            (st.balances "USDT")))
    ∧ (order.type = OrderType.Sell →
        (st.balances (baseAsset order.symbol) = 0 ∨
          st.balances (baseAsset order.symbol) < order.quantity) →
        (executePaperTrade order st oid now).1 = Except.error
          (TradeError.insufficientBalance (baseAsset order.symbol) order.quantity
            (st.balances (baseAsset order.symbol))))
    ∧ (∀ e, (executePaperTrade order st oid now).1 = Except.error e →
        (executePaperTrade order st oid now).2 = st) := by
  unfold executePaperTrade validateTrade
  rw [if_neg hsym]
  by_cases h2 : order.type = OrderType.Buy ∧
      st.balances "USDT" < order.price * order.quantity
  · rw [if_pos h2]
    refine ⟨by simp [Except.isOk, Except.toBool, h2], fun _ _ => rfl, ?_, fun e _ => rfl⟩
    intro hs
    rw [hs] at h2
    exact absurd h2.1 (by simp)
  · rw [if_neg h2]
    by_cases h3 : order.type = OrderType.Sell ∧
        (st.balances (baseAsset order.symbol) = 0 ∨
          st.balances (baseAsset order.symbol) < order.quantity)
    · rw [if_pos h3]
      refine ⟨by simp [Except.isOk, Except.toBool, h3], ?_, fun _ _ => rfl, fun e _ => rfl⟩
      intro hb
      rw [hb] at h3
      exact absurd h3.1 (by simp)
    · rw [if_neg h3]
      refine ⟨by simp [Except.isOk, Except.toBool, h2, h3], ?_, ?_, by simp⟩
      · intro hb hlt
        exact absurd ⟨hb, hlt⟩ h2
      · intro hs hbal
        exact absurd ⟨hs, hbal⟩ h3

/-- The C6 witness order: Buy 1 BTC at 50000 — required 50000 exceeds the
10000 USDT available on the fresh account. -/
def oW6 : TradeOrder :=
  ⟨"BTC", OrderType.Buy, 50000, 1, 0, 0, 50000, Currency.USD, false⟩

/-- Witness for C6 amended: the underfunded Buy `oW6` is rejected with the
`InsufficientBalance` data and leaves the store untouched. -/
theorem C6_witness :
    ¬initialStore.prices (baseAsset oW6.symbol) = 0
    ∧ ((executePaperTrade oW6 initialStore "PAPER-W6" 0).1.isOk = false ↔
        (oW6.type = OrderType.Buy ∧
          initialStore.balances "USDT" < oW6.price * oW6.quantity) ∨
        (oW6.type = OrderType.Sell ∧ (initialStore.balances (baseAsset oW6.symbol) = 0 ∨
          initialStore.balances (baseAsset oW6.symbol) < oW6.quantity)))
    ∧ (oW6.type = OrderType.Buy →
        initialStore.balances "USDT" < oW6.price * oW6.quantity →
        (executePaperTrade oW6 initialStore "PAPER-W6" 0).1 = Except.error
          (TradeError.insufficientBalance "USDT" (oW6.price * oW6.quantity)
            (initialStore.balances "USDT")))
    ∧ (∀ e, (executePaperTrade oW6 initialStore "PAPER-W6" 0).1 = Except.error e →
        (executePaperTrade oW6 initialStore "PAPER-W6" 0).2 = initialStore) := by
  have h : ¬initialStore.prices (baseAsset oW6.symbol) = 0 := by
    simp [initialStore, demoPrices, oW6, baseAsset_BTC]
  have hall := C6_amended initialStore oW6 "PAPER-W6" 0 h
  exact ⟨h, hall.1, hall.2.1, hall.2.2.2⟩

/-! ### Claims C3 and C8: the stop-loss scenario of the repository's own test
(`should update prices and trigger stop loss`): Buy 0.1 BTC at 50000 with
stopLoss 45000 / takeProfit 55000 on the fresh account. -/

/-- The C3/C8 scenario order. -/
def oC3 : TradeOrder :=
  ⟨"BTC", OrderType.Buy, 50000, 1/10, 45000, 55000, 5000, Currency.USD, false⟩

theorem vC3 : validateTrade oC3 initialStore = none := by
  simp [validateTrade, oC3, initialStore, demoPrices, demoBalances, baseAsset_BTC]
  norm_num

/-- The execution record `executePaperTrade` creates for `oC3`. -/
def tC3 : TradeExecution :=
  ⟨"PAPER-C3", "BTC", OrderType.Buy, 50000, 1/10, OrderStatus.Executed, 0, 45000, 55000,
    5000, Currency.USD, "Paper Buy order executed successfully",
    some ⟨5, "USDT", 1/1000⟩, 0, 0⟩

/-- The store after executing `oC3` on the fresh account. -/
def stC3 : PaperTradingStore := (executePaperTrade oC3 initialStore "PAPER-C3" 0).2

theorem stC3_eq : stC3 =
    { trades := [tC3],
      balances := updatePaperTradingStore tC3 demoBalances,
      prices := demoPrices, tradeHistory := [], totalProfitLoss := 0 } := by
  simp only [stC3, executePaperTrade, vC3]
  norm_num [tC3, oC3, initialStore, calculatePaperTradingFee]

/-- The original order as the trigger pass rewrites it at price 44000: status
is (re)set to `Executed` — not a terminal state — and only the message changes. -/
def tC3x : TradeExecution :=
  { tC3 with
    status := OrderStatus.Executed
    message := "Position closed by stop loss at " ++ toString (44000 : ℚ) }

/-- The closing execution the stop-loss trigger synthesizes at price 44000. -/
def closeC3 : TradeExecution :=
  mkCloseTrade tC3 44000 "PAPER-SL-"
    ("Paper stop loss executed at " ++ toString (44000 : ℚ)) 0 1

/-- Full evaluation of the price update `BTC = 44000` on `stC3`: the stop loss
fires, the original is relabelled (status stays `Executed`), the close trade is
appended and the balances are updated; the trade history is untouched. -/
theorem stC3x_eq : updatePaperTradingPrices stC3 [("BTC", 44000)] 0 1 =
    { trades := [tC3x, closeC3],
      balances := updatePaperTradingStore closeC3 (updatePaperTradingStore tC3 demoBalances),
      prices := mergePrices demoPrices [("BTC", 44000)],
      tradeHistory := [], totalProfitLoss := 0 } := by
  rw [updatePaperTradingPrices, stC3_eq]
  have hact : getActivePaperTrades
      { trades := [tC3],
        balances := updatePaperTradingStore tC3 demoBalances,
        prices := mergePrices demoPrices [("BTC", 44000)],
        tradeHistory := [], totalProfitLoss := 0 } = [tC3] := by
    simp [getActivePaperTrades, tC3]
  rw [checkStopLossAndTakeProfit, hact]
  simp only [List.foldl_cons, List.foldl_nil]
  rw [show processTrigger
      { trades := [tC3],
        balances := updatePaperTradingStore tC3 demoBalances,
        prices := mergePrices demoPrices [("BTC", 44000)],
        tradeHistory := [], totalProfitLoss := 0 } tC3 0 1 =
      { trades := [tC3x, closeC3],
        balances := updatePaperTradingStore closeC3 (updatePaperTradingStore tC3 demoBalances),
        prices := mergePrices demoPrices [("BTC", 44000)],
        tradeHistory := [], totalProfitLoss := 0 } from ?_]
  simp only [processTrigger, triggerPrice]
  have hcp : (if mergePrices demoPrices [("BTC", 44000)] tC3.symbol ≠ 0
      then mergePrices demoPrices [("BTC", 44000)] tC3.symbol else tC3.price) = (44000 : ℚ) := by
    simp [mergePrices, tC3]
  rw [hcp]
  have hbs : buyStopHit tC3 44000 := ⟨rfl, by norm_num [tC3]⟩
  rw [if_pos hbs]
  simp [executePaperStopLoss, setFirstMatching, tC3, tC3x, closeC3, mkCloseTrade,
    calculatePaperTradingFee]

/-- C3 fails on the code: after the stop-loss trigger at 44000 the original
order's status is still `Executed` (both records are; the original stays in
the active set, which now has two entries) and nothing was appended to the
trade history.  Only the descriptive message is set.  The repository's own
test expects zero active trades and one history entry here. -/
theorem C3_bug_eval :
    ((updatePaperTradingPrices stC3 [("BTC", 44000)] 0 1).trades.map fun t => t.status)
      = [OrderStatus.Executed, OrderStatus.Executed]
    ∧ (updatePaperTradingPrices stC3 [("BTC", 44000)] 0 1).tradeHistory = []
    ∧ ((updatePaperTradingPrices stC3 [("BTC", 44000)] 0 1).trades.map fun t => t.message)
      = ["Position closed by stop loss at 44000", "Paper stop loss executed at 44000"]
    ∧ (getActivePaperTrades (updatePaperTradingPrices stC3 [("BTC", 44000)] 0 1)).length = 2 := by
  rw [stC3x_eq]
  exact ⟨rfl, rfl, rfl, rfl⟩

/-- The original order as the trigger pass rewrites it at price 45000. -/
def tC3y : TradeExecution :=
  { tC3 with
    status := OrderStatus.Executed
    message := "Position closed by stop loss at " ++ toString (45000 : ℚ) }

/-- The closing execution the stop-loss trigger synthesizes at price 45000. -/
def closeC3y : TradeExecution :=
  mkCloseTrade tC3 45000 "PAPER-SL-"
    ("Paper stop loss executed at " ++ toString (45000 : ℚ)) 0 1

/-- Full evaluation of the boundary price update `BTC = 45000` on `stC3`:
the inclusive comparison fires the stop loss. -/
theorem stC3y_eq : updatePaperTradingPrices stC3 [("BTC", 45000)] 0 1 =
    { trades := [tC3y, closeC3y],
      balances := updatePaperTradingStore closeC3y (updatePaperTradingStore tC3 demoBalances),
      prices := mergePrices demoPrices [("BTC", 45000)],
      tradeHistory := [], totalProfitLoss := 0 } := by
  rw [updatePaperTradingPrices, stC3_eq]
  have hact : getActivePaperTrades
      { trades := [tC3],
        balances := updatePaperTradingStore tC3 demoBalances,
        prices := mergePrices demoPrices [("BTC", 45000)],
        tradeHistory := [], totalProfitLoss := 0 } = [tC3] := by
    simp [getActivePaperTrades, tC3]
  rw [checkStopLossAndTakeProfit, hact]
  simp only [List.foldl_cons, List.foldl_nil]
  rw [show processTrigger
      { trades := [tC3],
        balances := updatePaperTradingStore tC3 demoBalances,
        prices := mergePrices demoPrices [("BTC", 45000)],
        tradeHistory := [], totalProfitLoss := 0 } tC3 0 1 =
      { trades := [tC3y, closeC3y],
        balances := updatePaperTradingStore closeC3y (updatePaperTradingStore tC3 demoBalances),
        prices := mergePrices demoPrices [("BTC", 45000)],
        tradeHistory := [], totalProfitLoss := 0 } from ?_]
  simp only [processTrigger, triggerPrice]
  have hcp : (if mergePrices demoPrices [("BTC", 45000)] tC3.symbol ≠ 0
      then mergePrices demoPrices [("BTC", 45000)] tC3.symbol else tC3.price) = (45000 : ℚ) := by
    simp [mergePrices, tC3]
  rw [hcp]
  have hbs : buyStopHit tC3 45000 := ⟨rfl, by norm_num [tC3]⟩
  rw [if_pos hbs]
  simp [executePaperStopLoss, setFirstMatching, tC3, tC3y, closeC3y, mkCloseTrade,
    calculatePaperTradingFee]

/-- At 45001 (strictly above the stop loss, below the take profit) no trigger
comparison holds for `tC3`. -/
theorem stC3_no_trigger_45001 :
    ∀ t ∈ getActivePaperTrades
      { stC3 with prices := mergePrices stC3.prices [("BTC", 45001)] },
      ¬buyStopHit t (triggerPrice
          { stC3 with prices := mergePrices stC3.prices [("BTC", 45001)] } t) ∧
      ¬buyTakeProfitHit t (triggerPrice
          { stC3 with prices := mergePrices stC3.prices [("BTC", 45001)] } t) ∧
      ¬sellStopHit t (triggerPrice
          { stC3 with prices := mergePrices stC3.prices [("BTC", 45001)] } t) ∧
      ¬sellTakeProfitHit t (triggerPrice
          { stC3 with prices := mergePrices stC3.prices [("BTC", 45001)] } t) := by
  intro t ht
  have hteq : t = tC3 := by
    rw [stC3_eq] at ht
    simpa [getActivePaperTrades, tC3] using ht
  subst hteq
  have hcp : triggerPrice
      { stC3 with prices := mergePrices stC3.prices [("BTC", 45001)] } tC3 = (45001 : ℚ) := by
    rw [stC3_eq]
    simp [triggerPrice, mergePrices, tC3]
  rw [hcp]
  refine ⟨?_, ?_, ?_, ?_⟩ <;>
    simp [buyStopHit, buyTakeProfitHit, sellStopHit, sellTakeProfitHit, tC3] <;>
    norm_num

/-- C8: trigger directionality at the boundary.  The Buy position with
`stopLoss = 45000` (`tC3`) is not closed by the update to 45001 — the store
changes only by the price merge — but is closed by the update to 45000; and
in general the code's buy-side stop-loss comparison is the inclusive
`currentPrice ≤ stopLoss`, with the sell-side comparisons mirrored
(`currentPrice ≥ stopLoss`, take profit `currentPrice ≥ takeProfit` for Buy
and `currentPrice ≤ takeProfit` for Sell). -/
theorem C8_trigger_directionality :
    (updatePaperTradingPrices stC3 [("BTC", 45001)] 0 1
        = { stC3 with prices := mergePrices stC3.prices [("BTC", 45001)] })
    ∧ ((updatePaperTradingPrices stC3 [("BTC", 45000)] 0 1).trades.map fun t => t.message)
        = ["Position closed by stop loss at 45000", "Paper stop loss executed at 45000"]
    ∧ (∀ t : TradeExecution, ∀ p : ℚ,
        buyStopHit t p ↔ t.type = OrderType.Buy ∧ p ≤ t.stopLoss)
    ∧ (∀ t : TradeExecution, ∀ p : ℚ,
        buyTakeProfitHit t p ↔ t.type = OrderType.Buy ∧ t.takeProfit ≤ p)
    ∧ (∀ t : TradeExecution, ∀ p : ℚ,
        sellStopHit t p ↔ t.type = OrderType.Sell ∧ t.stopLoss ≤ p)
    ∧ (∀ t : TradeExecution, ∀ p : ℚ,
        sellTakeProfitHit t p ↔ t.type = OrderType.Sell ∧ p ≤ t.takeProfit) := by
  refine ⟨?_, ?_, fun t p => Iff.rfl, fun t p => Iff.rfl, fun t p => Iff.rfl,
    fun t p => Iff.rfl⟩
  · unfold updatePaperTradingPrices
    exact checkStopLossAndTakeProfit_eq_self _ 0 1 stC3_no_trigger_45001
  · rw [stC3y_eq]
    rfl

/-! ### Claim C4 -/

/-- The C4 counterexample order: a Buy with `stopLoss = 0` and
`takeProfit = 0` — per the claim, "no trigger at all". -/
def oC4 : TradeOrder :=
  ⟨"BTC", OrderType.Buy, 50000, 1/10, 0, 0, 5000, Currency.USD, false⟩

theorem vC4 : validateTrade oC4 initialStore = none := by
  simp [validateTrade, oC4, initialStore, demoPrices, demoBalances, baseAsset_BTC]
  norm_num

/-- The execution record `executePaperTrade` creates for `oC4`. -/
def tC4 : TradeExecution :=
  ⟨"PAPER-C4", "BTC", OrderType.Buy, 50000, 1/10, OrderStatus.Executed, 0, 0, 0,
    5000, Currency.USD, "Paper Buy order executed successfully",
    some ⟨5, "USDT", 1/1000⟩, 0, 0⟩

/-- The store after executing `oC4` on the fresh account. -/
def stC4 : PaperTradingStore := (executePaperTrade oC4 initialStore "PAPER-C4" 0).2

theorem stC4_eq : stC4 =
    { trades := [tC4],
      balances := updatePaperTradingStore tC4 demoBalances,
      prices := demoPrices, tradeHistory := [], totalProfitLoss := 0 } := by
  simp only [stC4, executePaperTrade, vC4]
  norm_num [tC4, oC4, initialStore, calculatePaperTradingFee]

/-- The original order as the (spurious) take-profit trigger rewrites it. -/
def tC4x : TradeExecution :=
  { tC4 with
    status := OrderStatus.Executed
    message := "Position closed by take profit at " ++ toString (51000 : ℚ) }

/-- The close trade the (spurious) take-profit trigger synthesizes. -/
def closeC4 : TradeExecution :=
  mkCloseTrade tC4 51000 "PAPER-TP-"
    ("Paper take profit executed at " ++ toString (51000 : ℚ)) 0 1

/-- Full evaluation of the price update `BTC = 51000` on `stC4`: although both
trigger levels are 0, the comparison `currentPrice >= takeProfit` holds
(`51000 ≥ 0`), so the take profit fires. -/
theorem stC4x_eq : updatePaperTradingPrices stC4 [("BTC", 51000)] 0 1 =
    { trades := [tC4x, closeC4],
      balances := updatePaperTradingStore closeC4 (updatePaperTradingStore tC4 demoBalances),
      prices := mergePrices demoPrices [("BTC", 51000)],
      tradeHistory := [], totalProfitLoss := 0 } := by
  rw [updatePaperTradingPrices, stC4_eq]
  have hact : getActivePaperTrades
      { trades := [tC4],
        balances := updatePaperTradingStore tC4 demoBalances,
        prices := mergePrices demoPrices [("BTC", 51000)],
        tradeHistory := [], totalProfitLoss := 0 } = [tC4] := by
    simp [getActivePaperTrades, tC4]
  rw [checkStopLossAndTakeProfit, hact]
  simp only [List.foldl_cons, List.foldl_nil]
  rw [show processTrigger
      { trades := [tC4],
        balances := updatePaperTradingStore tC4 demoBalances,
        prices := mergePrices demoPrices [("BTC", 51000)],
        tradeHistory := [], totalProfitLoss := 0 } tC4 0 1 =
      { trades := [tC4x, closeC4],
        balances := updatePaperTradingStore closeC4 (updatePaperTradingStore tC4 demoBalances),
        prices := mergePrices demoPrices [("BTC", 51000)],
        tradeHistory := [], totalProfitLoss := 0 } from ?_]
  simp only [processTrigger, triggerPrice]
  have hcp : (if mergePrices demoPrices [("BTC", 51000)] tC4.symbol ≠ 0
      then mergePrices demoPrices [("BTC", 51000)] tC4.symbol else tC4.price) = (51000 : ℚ) := by
    simp [mergePrices, tC4]
  rw [hcp]
  have hbs : ¬buyStopHit tC4 51000 := by
    simp [buyStopHit, tC4]
  have htp : buyTakeProfitHit tC4 51000 := ⟨rfl, by norm_num [tC4]⟩
  rw [if_neg hbs, if_pos htp]
  simp [executePaperTakeProfit, setFirstMatching, tC4, tC4x, closeC4, mkCloseTrade,
    calculatePaperTradingFee]

/-- C4 fails on the code: with `stopLoss = takeProfit = 0` — "no trigger at
all" per the claim — the price update to 51000 does not merely merge prices:
the buy-side take-profit comparison `51000 ≥ 0` fires, a close trade is
appended (the trades list grows from one to two entries) and balances change. -/
theorem C4_counterexample :
    stC4.trades.length = 1
    ∧ (updatePaperTradingPrices stC4 [("BTC", 51000)] 0 1).trades.length = 2
    ∧ ((updatePaperTradingPrices stC4 [("BTC", 51000)] 0 1).trades.map fun t => t.message)
      = ["Position closed by take profit at 51000", "Paper take profit executed at 51000"] := by
  refine ⟨?_, ?_, ?_⟩
  · rw [stC4_eq]
    rfl
  · rw [stC4x_eq]
    rfl
  · rw [stC4x_eq]
    rfl

/-- C4 amended: under the code's comparisons a zero level is inert only on the
protected side (`stopLoss = 0` on a Buy, `takeProfit = 0` on a Sell); a Buy's
`takeProfit = 0` and a Sell's `stopLoss = 0` always count as breached.  For
every price update after which no active trade satisfies any of the four
trigger comparisons, `updatePaperTradingPrices` changes nothing except
merging the new prices: trades, balances, history and realized PnL are
untouched. -/
theorem C4_amended (st : PaperTradingStore) (ps : List (String × ℚ)) (k : ℕ) (now : Int)
    (h : ∀ t ∈ getActivePaperTrades { st with prices := mergePrices st.prices ps },
      ¬buyStopHit t (triggerPrice { st with prices := mergePrices st.prices ps } t) ∧
      ¬buyTakeProfitHit t (triggerPrice { st with prices := mergePrices st.prices ps } t) ∧
      ¬sellStopHit t (triggerPrice { st with prices := mergePrices st.prices ps } t) ∧
      ¬sellTakeProfitHit t (triggerPrice { st with prices := mergePrices st.prices ps } t)) :
    updatePaperTradingPrices st ps k now = { st with prices := mergePrices st.prices ps } := by
  unfold updatePaperTradingPrices
  exact checkStopLossAndTakeProfit_eq_self _ k now h

/-- At 50000 (between stop loss 45000 and take profit 55000) no trigger
comparison holds for `tC3`. -/
theorem stC3_no_trigger_50000 :
    ∀ t ∈ getActivePaperTrades
      { stC3 with prices := mergePrices stC3.prices [("BTC", 50000)] },
      ¬buyStopHit t (triggerPrice
          { stC3 with prices := mergePrices stC3.prices [("BTC", 50000)] } t) ∧
      ¬buyTakeProfitHit t (triggerPrice
          { stC3 with prices := mergePrices stC3.prices [("BTC", 50000)] } t) ∧
      ¬sellStopHit t (triggerPrice
          { stC3 with prices := mergePrices stC3.prices [("BTC", 50000)] } t) ∧
      ¬sellTakeProfitHit t (triggerPrice
          { stC3 with prices := mergePrices stC3.prices [("BTC", 50000)] } t) := by
  intro t ht
  have hteq : t = tC3 := by
    rw [stC3_eq] at ht
    simpa [getActivePaperTrades, tC3] using ht
  subst hteq
  have hcp : triggerPrice
      { stC3 with prices := mergePrices stC3.prices [("BTC", 50000)] } tC3 = (50000 : ℚ) := by
    rw [stC3_eq]
    simp [triggerPrice, mergePrices, tC3]
  rw [hcp]
  refine ⟨?_, ?_, ?_, ?_⟩ <;>
    simp [buyStopHit, buyTakeProfitHit, sellStopHit, sellTakeProfitHit, tC3] <;>
    norm_num

/-- Witness for C4 amended: the position with nonzero levels 45000/55000 is
untouched by a price update to 50000 — the store changes only by the price
merge. -/
theorem C4_witness :
    (∀ t ∈ getActivePaperTrades
        { stC3 with prices := mergePrices stC3.prices [("BTC", 50000)] },
      ¬buyStopHit t (triggerPrice
          { stC3 with prices := mergePrices stC3.prices [("BTC", 50000)] } t) ∧
      ¬buyTakeProfitHit t (triggerPrice
          { stC3 with prices := mergePrices stC3.prices [("BTC", 50000)] } t) ∧
      ¬sellStopHit t (triggerPrice
          { stC3 with prices := mergePrices stC3.prices [("BTC", 50000)] } t) ∧
      ¬sellTakeProfitHit t (triggerPrice
          { stC3 with prices := mergePrices stC3.prices [("BTC", 50000)] } t))
    ∧ updatePaperTradingPrices stC3 [("BTC", 50000)] 0 1
        = { stC3 with prices := mergePrices stC3.prices [("BTC", 50000)] } :=
  ⟨stC3_no_trigger_50000,
    C4_amended stC3 [("BTC", 50000)] 0 1 stC3_no_trigger_50000⟩

/-! ### Claim C10 -/

/-- C10: every closing execution synthesized by a stop-loss or take-profit
trigger carries status `Executed` and `stopLoss = takeProfit = 0`, is appended
to the trades list, and therefore belongs to `getActivePaperTrades` of the
resulting store — the exact list a subsequent `checkStopLossAndTakeProfit`
pass folds over — just like a caller-created open position. -/
theorem C10_close_trade_is_active (st : PaperTradingStore) (trade : TradeExecution)
    (p : ℚ) (k : ℕ) (now : Int)
    (hmem : ∃ t ∈ st.trades, t.orderId = trade.orderId) :
    ((mkCloseTrade trade p "PAPER-SL-"
        ("Paper stop loss executed at " ++ toString p) k now).status = OrderStatus.Executed
      ∧ (mkCloseTrade trade p "PAPER-SL-"
        ("Paper stop loss executed at " ++ toString p) k now).stopLoss = 0
      ∧ (mkCloseTrade trade p "PAPER-SL-"
        ("Paper stop loss executed at " ++ toString p) k now).takeProfit = 0
      ∧ mkCloseTrade trade p "PAPER-SL-"
          ("Paper stop loss executed at " ++ toString p) k now
        ∈ (executePaperStopLoss st trade p k now).trades
      ∧ mkCloseTrade trade p "PAPER-SL-"
          ("Paper stop loss executed at " ++ toString p) k now
        ∈ getActivePaperTrades (executePaperStopLoss st trade p k now))
    ∧ ((mkCloseTrade trade p "PAPER-TP-"
        ("Paper take profit executed at " ++ toString p) k now).status = OrderStatus.Executed
      ∧ (mkCloseTrade trade p "PAPER-TP-"
        ("Paper take profit executed at " ++ toString p) k now).stopLoss = 0
      ∧ (mkCloseTrade trade p "PAPER-TP-"
        ("Paper take profit executed at " ++ toString p) k now).takeProfit = 0
      ∧ mkCloseTrade trade p "PAPER-TP-"
          ("Paper take profit executed at " ++ toString p) k now
        ∈ (executePaperTakeProfit st trade p k now).trades
      ∧ mkCloseTrade trade p "PAPER-TP-"
          ("Paper take profit executed at " ++ toString p) k now
        ∈ getActivePaperTrades (executePaperTakeProfit st trade p k now)) := by
  constructor
  · rcases setFirstMatching_of_mem st.trades trade.orderId
      (fun t =>
        { t with
          status := OrderStatus.Executed
          message := "Position closed by stop loss at " ++ toString p }) hmem with
      ⟨l', hl', _⟩
    unfold executePaperStopLoss
    rw [hl']
    refine ⟨rfl, rfl, rfl, ?_, ?_⟩
    · simp
    · simp [getActivePaperTrades, mkCloseTrade]
  · rcases setFirstMatching_of_mem st.trades trade.orderId
      (fun t =>
        { t with
          status := OrderStatus.Executed
          message := "Position closed by take profit at " ++ toString p }) hmem with
      ⟨l', hl', _⟩
    unfold executePaperTakeProfit
    rw [hl']
    refine ⟨rfl, rfl, rfl, ?_, ?_⟩
    · simp
    · simp [getActivePaperTrades, mkCloseTrade]

/-- Witness for C10 at the concrete stop-loss scenario store `stC3`. -/
theorem C10_witness :
    (∃ t ∈ stC3.trades, t.orderId = tC3.orderId)
    ∧ mkCloseTrade tC3 44000 "PAPER-SL-"
        ("Paper stop loss executed at " ++ toString (44000 : ℚ)) 0 1
      ∈ getActivePaperTrades (executePaperStopLoss stC3 tC3 44000 0 1) := by
  have hmem : ∃ t ∈ stC3.trades, t.orderId = tC3.orderId := by
    rw [stC3_eq]
    exact ⟨tC3, by simp, rfl⟩
  exact ⟨hmem,
    (C10_close_trade_is_active stC3 tC3 44000 0 1 hmem).1.2.2.2.2⟩

/-! ### Claim C2 -/

/-- The C2 scenario order: Buy 1 BTC at 100 on the fresh account. -/
def oC2 : TradeOrder :=
  ⟨"BTC", OrderType.Buy, 100, 1, 0, 0, 100, Currency.USD, false⟩

theorem vC2 : validateTrade oC2 initialStore = none := by
  simp [validateTrade, oC2, initialStore, demoPrices, demoBalances, baseAsset_BTC]
  norm_num

/-- The execution record `executePaperTrade` creates for `oC2`. -/
def tC2 : TradeExecution :=
  ⟨"PAPER-C2", "BTC", OrderType.Buy, 100, 1, OrderStatus.Executed, 0, 0, 0, 100,
    Currency.USD, "Paper Buy order executed successfully",
    some ⟨1/10, "USDT", 1/1000⟩, 0, 0⟩

/-- The store after executing `oC2` on the fresh account. -/
def sC2 : PaperTradingStore := (executePaperTrade oC2 initialStore "PAPER-C2" 0).2

theorem sC2_eq : sC2 =
    { trades := [tC2],
      balances := updatePaperTradingStore tC2 demoBalances,
      prices := demoPrices, tradeHistory := [], totalProfitLoss := 0 } := by
  simp only [sC2, executePaperTrade, vC2]
  norm_num [tC2, oC2, initialStore, calculatePaperTradingFee]

/-- The record after the first cancellation: PnL at mark 50000 is
`(50000 - 100) * 1 - 0.1 = 49899.9`. -/
def tC2c : TradeExecution :=
  { tC2 with
    status := OrderStatus.Cancelled
    message := "Paper trade cancelled successfully"
    currentPnL := 498999/10
    currentPnLPercentage := 498999/10 }

/-- The store after the first `cancelPaperTrade('PAPER-C2')`.  Note the
cancelled trade is *still in the trades list* (only its status changed). -/
def sC2a : PaperTradingStore := (cancelPaperTrade "PAPER-C2" sC2).2

theorem sC2a_eq : sC2a =
    { trades := [tC2c],
      balances := reverseTradeBalanceChanges tC2c (updatePaperTradingStore tC2 demoBalances),
      prices := demoPrices,
      tradeHistory := [tC2c],
      totalProfitLoss := 498999/10 } := by
  have hf : findTrade [tC2] "PAPER-C2" = some tC2 := by simp [findTrade, tC2]
  rw [sC2a, sC2_eq]
  simp only [cancelPaperTrade, hf]
  norm_num [tC2, tC2c, baseAsset_BTC, demoPrices, setFirstMatching]

/-- C2 is a code bug: the first cancellation leaves the trade in the trades
list, so a second `cancelPaperTrade` with the same orderId finds it again,
*succeeds* instead of failing with OrderNotFound/OrderAlreadyClosed, pushes a
second record to the history, and applies the balance reversal a second time:
the BTC balance goes from 0 to -1 (and USDT is credited twice). -/
theorem C2_bug_eval :
    (cancelPaperTrade "PAPER-C2" sC2a).1.isOk = true
    ∧ sC2a.balances "BTC" = 0
    ∧ ((cancelPaperTrade "PAPER-C2" sC2a).2).balances "BTC" = -1
    ∧ ((cancelPaperTrade "PAPER-C2" sC2a).2).tradeHistory.length = 2 := by
  rw [sC2a_eq]
  have hf2 : findTrade [tC2c] "PAPER-C2" = some tC2c := by simp [findTrade, tC2c, tC2]
  refine ⟨?_, ?_, ?_, ?_⟩
  · simp only [cancelPaperTrade, hf2]
    rfl
  · simp [reverseTradeBalanceChanges, updatePaperTradingStore, addBal, tC2c, tC2, demoBalances]
  · simp only [cancelPaperTrade, hf2]
    simp [reverseTradeBalanceChanges, updatePaperTradingStore, addBal, tC2c, tC2, demoBalances]
  · simp only [cancelPaperTrade, hf2]
    simp

end PaperTrading
